import Mathlib

/-!
Verification of the s3-copy upload pipeline (`main.go`).

The Go program walks a file tree and uploads every regular file to an
S3-compatible store.  The embedding below models the data the program
manipulates and the two central functions, `createUploadFunc` (the
`fs.WalkDirFunc` callback produced at `main.go:109-145`) and
`s3Uploader.Upload` (`main.go:90-105`), together with the pre-walk
credential check of `main` (`main.go:28-32`).

Go errors are modelled as their message strings (the program only ever
builds errors with `fmt.Errorf` on string formats).  Side effects of the
callback (log lines, opening and closing the file stream, the call to the
uploader) are modelled as an explicit event trace so that statements such
as "the uploader is invoked exactly once" or "the opened stream is always
closed" can be expressed.
-/

/-- One directory entry as seen by the walk callback (`fs.DirEntry`);
only `IsDir` is consulted by the program. -/
structure DirEntry where
  name : String
  isDir : Bool
deriving DecidableEq

/-- A readable byte stream (`io.Reader` positioned inside some content).
`fsys.Open` yields a stream at position 0. -/
structure FileStream where
  content : List Char
  pos : Nat
deriving DecidableEq

/-- Reading the stream to the end (`io.ReadAll`) yields the content from
the current position onwards. -/
def FileStream.readAll (f : FileStream) : List Char :=
  f.content.drop f.pos

/-- `uploadObject` from `main.go:57-61`: information about a file to upload. -/
structure UploadObject where
  Path : String
  Body : FileStream
  ContentType : String
deriving DecidableEq

/-- The `uploader` interface (`main.go:64-67`): a single `Upload`
operation returning `none` on success and the error message on failure. -/
abbrev Uploader := UploadObject → Option String

/-- The filesystem abstraction (`fs.FS`): opening a path either yields the
file content or fails with an error message. -/
structure FSys where
  openFile : String → Except String (List Char)

/-- Observable actions performed by the walk callback, in order. -/
inductive Event where
  | foundDir (path : String)
  | fileOpened (path : String)
  | uploadCalled (obj : UploadObject)
  | fileClosed (path : String)
  | uploaded (path : String)
deriving DecidableEq

/-- Result of one callback invocation: a returned `error` value
(`none` = nil) together with the event trace, or a runtime fault
(dereferencing a nil `fs.DirEntry` when no walk error was supplied). -/
inductive StepResult where
  | ret (err : Option String) (events : List Event)
  | crash
deriving DecidableEq

/-- The events of a step; a crash produces none. -/
def StepResult.events : StepResult → List Event
  | .ret _ evs => evs
  | .crash => []

/-- The returned error of a step; a crash never returns. -/
def StepResult.errOut : StepResult → Option String
  | .ret e _ => e
  | .crash => none

/-- The objects the uploader was invoked with, in order. -/
def uploadCalls (events : List Event) : List UploadObject :=
  events.filterMap fun e =>
    match e with
    | .uploadCalled obj => some obj
    | _ => none

/-- The paths for which a file stream was obtained, in order. -/
def opensOf (events : List Event) : List String :=
  events.filterMap fun e =>
    match e with
    | .fileOpened p => some p
    | _ => none

/-- ASCII lower-casing of a character, as done by the extension lookup of
Go's `mime` package. -/
def lowerChar (c : Char) : Char :=
  if 65 ≤ c.toNat ∧ c.toNat ≤ 90 then Char.ofNat (c.toNat + 32) else c

/-- ASCII lower-casing of a string. -/
def lowerString (s : String) : String :=
  String.mk (s.data.map lowerChar)

/-- Scan the reversed character list of a path for the start of the
extension: stop (no extension) at a path separator, return the suffix
from the last dot otherwise.  `acc` holds the characters already passed,
in original order. -/
def extRevAux : List Char → List Char → Option (List Char)
  | [], _ => none
  | c :: rest, acc =>
    if c = '/' then none
    else if c = '.' then some (c :: acc)
    else extRevAux rest (c :: acc)

/-- `filepath.Ext`: the suffix of the final slash-separated element of
`path` beginning at the final dot; empty if there is no dot. -/
def filepathExt (path : String) : String :=
  match extRevAux path.data.reverse [] with
  | some cs => String.mk cs
  | none => ""

/-- Modelled from the spec: the standard extension-to-MIME-type table used
by Go's `mime.TypeByExtension` (standard library code, not part of this
repository).  Entries follow the spec's examples (`.txt` →
`text/plain; charset=utf-8`, `.js` → `application/javascript`) and the
builtin table of the Go toolchain this repository targets. -/
def builtinMimeTypes : List (String × String) :=
  [ (".css",  "text/css; charset=utf-8"),
    (".gif",  "image/gif"),
    (".htm",  "text/html; charset=utf-8"),
    (".html", "text/html; charset=utf-8"),
    (".jpeg", "image/jpeg"),
    (".jpg",  "image/jpeg"),
    (".js",   "application/javascript"),
    (".json", "application/json"),
    (".mjs",  "application/javascript"),
    (".pdf",  "application/pdf"),
    (".png",  "image/png"),
    (".svg",  "image/svg+xml"),
    (".txt",  "text/plain; charset=utf-8"),
    (".wasm", "application/wasm"),
    (".webp", "image/webp"),
    (".xml",  "text/xml; charset=utf-8") ]

/-- Modelled from the spec: `mime.TypeByExtension` — look the extension up
in the standard table, first exactly, then ASCII-lower-cased; an unknown
or missing extension yields the empty string, not an error. -/
def mimeTypeByExtension (ext : String) : String :=
  match builtinMimeTypes.lookup ext with
  | some t => t
  | none =>
    match builtinMimeTypes.lookup (lowerString ext) with
    | some t => t
    | none => ""

/-- Error message built at `main.go:112`. -/
def walkErrMsg (path e : String) : String :=
  "could not walk " ++ path ++ ": " ++ e

/-- Error message built at `main.go:128`. -/
def openErrMsg (path e : String) : String :=
  "could not open " ++ path ++ " for reading: " ++ e

/-- Error message built at `main.go:138`. -/
def uploadErrMsg (path e : String) : String :=
  "failed to upload " ++ path ++ ": " ++ e

/-- `createUploadFunc` (`main.go:109-145`): the walk callback.  A non-nil
prior walk error is wrapped and returned at once; directories are logged
and skipped; otherwise the content type is derived from the path's
extension, the file is opened (failure wrapped and returned), the
uploader is invoked with the built `uploadObject`, an upload failure is
wrapped and returned, and the opened stream is closed (the deferred
`file.Close`) on both exits.  A nil entry with a nil error would fault
(`entry.IsDir()` on a nil interface), modelled as `.crash`. -/
def createUploadFunc (fsys : FSys) (client : Uploader) :
    String → Option DirEntry → Option String → StepResult :=
  fun path entry err =>
    match err with
    | some e => .ret (some (walkErrMsg path e)) []
    | none =>
      match entry with
      | none => .crash
      | some d =>
        if d.isDir then
          .ret none [.foundDir path]
        else
          match fsys.openFile path with
          | .error e => .ret (some (openErrMsg path e)) []
          | .ok content =>
            match client ⟨path, ⟨content, 0⟩, mimeTypeByExtension (filepathExt path)⟩ with
            | some uerr =>
              .ret (some (uploadErrMsg path uerr))
                [.fileOpened path,
                 .uploadCalled ⟨path, ⟨content, 0⟩, mimeTypeByExtension (filepathExt path)⟩,
                 .fileClosed path]
            | none =>
              .ret none
                [.fileOpened path,
                 .uploadCalled ⟨path, ⟨content, 0⟩, mimeTypeByExtension (filepathExt path)⟩,
                 .uploaded path, .fileClosed path]

/-- Input passed to the underlying S3 manager upload call
(`s3manager.UploadInput`, built at `main.go:91-98`).  `Metadata` models
the Go `map[string]*string` as an association list. -/
structure UploadInput where
  Bucket : String
  Key : String
  ACL : String
  Body : FileStream
  ContentType : String
  Metadata : List (String × Option String)
deriving DecidableEq

/-- `s3Uploader` (`main.go:70-79`): the S3-backed implementation of the
uploader interface.  `base` models the external `s3manager.Uploader`
client as a function from the upload input to an optional error
message. -/
structure S3Uploader where
  base : UploadInput → Option String
  bucket : String
  fileACL : String
  Tags : List (String × Option String)

/-- The `s3manager.UploadInput` that `s3Uploader.Upload` hands to the
base client (`main.go:91-98`). -/
def S3Uploader.uploadInput (s : S3Uploader) (object : UploadObject) : UploadInput :=
  ⟨s.bucket, object.Path, s.fileACL, object.Body, object.ContentType, s.Tags⟩

/-- `s3Uploader.Upload` (`main.go:90-105`): call the base client with the
configured bucket, ACL and tags and the object's path, body and content
type; wrap any failure uniformly as a single S3 upload error. -/
def S3Uploader.Upload (s : S3Uploader) (object : UploadObject) : Option String :=
  match s.base (S3Uploader.uploadInput s object) with
  | some err => some ("failed to upload to S3: " ++ err)
  | none => none

/-- `newS3Uploader` (`main.go:81-88`): fresh uploader with an empty tag
set. -/
def newS3Uploader (client : UploadInput → Option String)
    (bucket fileACL : String) : S3Uploader :=
  ⟨client, bucket, fileACL, []⟩

/-- The uploader instance built by `main` (`main.go:46-49`): the ACL is
set unconditionally to `public-read`, and the app-version tag is added
exactly when a non-empty `-app-version` flag was given. -/
def mainS3Uploader (base : UploadInput → Option String)
    (bucket appVersion : String) : S3Uploader :=
  if appVersion = "" then
    newS3Uploader base bucket "public-read"
  else
    ⟨base, bucket, "public-read",
     [("x-amz-meta-app-version", some appVersion)]⟩

/-- The environment variables `main` reads (`main.go:28-29`); an absent
variable reads as the empty string. -/
structure Env where
  awsAccessKeyId : String
  awsSecretAccessKey : String

/-- How the modelled `main` terminates: `log.Fatal` exits with a non-zero
status, otherwise the program completes normally. -/
inductive MainResult where
  | fatalExit (code : Nat) (msg : String)
  | completed
deriving DecidableEq

/-- The fatal message of `main.go:31`. -/
def missingCredentialsMsg : String :=
  "Both \x27AWS_ACCESS_KEY_ID\x27 and \x27AWS_SECRET_ACCESS_KEY\x27 must be provided as environment variables."

/-- `filepath.WalkDir` restricted to a given visit sequence: invoke the
callback on each `(path, entry, walkError)` triple in order,
short-circuiting on the first returned error.  (The real walk never
passes a nil entry together with a nil error, so the `.crash` branch is
mapped to an aborting error.) -/
def runWalk (stepf : String → Option DirEntry → Option String → StepResult) :
    List (String × Option DirEntry × Option String) → Option String × List Event
  | [] => (none, [])
  | (p, ent, e) :: rest =>
    match stepf p ent e with
    | .ret none evs =>
      match runWalk stepf rest with
      | (r, evs2) => (r, evs ++ evs2)
    | .ret (some m) evs => (some m, evs)
    | .crash => (some "nil entry", [])

/-- `main` (`main.go:19-54`), modelled over an explicit environment,
filesystem, upload client and visit sequence: if either credential
variable is empty the process exits fatally before any walk; otherwise
the walk runs with the callback of `createUploadFunc`, and a walk error
is fatal (`log.Fatal("Upload failed:", err)`). -/
def mainRun (env : Env) (fsys : FSys) (client : Uploader)
    (entries : List (String × Option DirEntry × Option String)) :
    MainResult × List Event :=
  if env.awsAccessKeyId = "" ∨ env.awsSecretAccessKey = "" then
    (.fatalExit 1 missingCredentialsMsg, [])
  else
    match runWalk (createUploadFunc fsys client) entries with
    | (some m, evs) => (.fatalExit 1 ("Upload failed:" ++ m), evs)
    | (none, evs) => (.completed, evs)

/-! ### Concrete fixtures used by the witnesses -/

/-- A filesystem holding the single file `foo.txt` with content
`some body` (the fixture of the repository's tests). -/
def fsysDemo : FSys :=
  ⟨fun p => if p = "foo.txt" then .ok "some body".data else .error "file not found"⟩

/-- A filesystem on which every open fails. -/
def fsysBroken : FSys :=
  ⟨fun _ => .error "can\x27t be opened"⟩

/-- An upload client that always succeeds. -/
def clientOk : Uploader := fun _ => none

/-- An upload client that always fails. -/
def clientFail : Uploader := fun _ => some "failed to upload"

/-- A base S3 client that always fails. -/
def baseFail : UploadInput → Option String := fun _ => some "boom"

/-- A sample upload object. -/
def objDemo : UploadObject :=
  ⟨"foo.txt", ⟨"some body".data, 0⟩, "text/plain; charset=utf-8"⟩

/-! ### Claims -/

/-- C1: for every non-directory entry whose file opens successfully and
whose upload succeeds, the callback invokes the uploader exactly once,
with an object whose `Path` is the path it was called with and whose
`ContentType` is the standard MIME mapping of the path's extension
(`.txt` → `text/plain; charset=utf-8`, `.js` → `application/javascript`,
unknown or missing extension → empty string), and returns success. -/
theorem createUploadFunc_success_uploads_once (fsys : FSys) (client : Uploader)
    (path : String) (d : DirEntry) (content : List Char)
    (hdir : d.isDir = false)
    (hopen : fsys.openFile path = .ok content)
    (hup : client ⟨path, ⟨content, 0⟩, mimeTypeByExtension (filepathExt path)⟩ = none) :
    createUploadFunc fsys client path (some d) none =
      .ret none
        [.fileOpened path,
         .uploadCalled ⟨path, ⟨content, 0⟩, mimeTypeByExtension (filepathExt path)⟩,
         .uploaded path, .fileClosed path] ∧
    uploadCalls (StepResult.events (createUploadFunc fsys client path (some d) none)) =
      [⟨path, ⟨content, 0⟩, mimeTypeByExtension (filepathExt path)⟩] ∧
    mimeTypeByExtension (filepathExt "foo.txt") = "text/plain; charset=utf-8" ∧
    mimeTypeByExtension (filepathExt "app/index.js") = "application/javascript" ∧
    mimeTypeByExtension (filepathExt "archive.zzz") = "" ∧
    mimeTypeByExtension (filepathExt "README") = "" := by
  have hstep : createUploadFunc fsys client path (some d) none =
      .ret none
        [.fileOpened path,
         .uploadCalled ⟨path, ⟨content, 0⟩, mimeTypeByExtension (filepathExt path)⟩,
         .uploaded path, .fileClosed path] := by
    simp [createUploadFunc, hdir, hopen, hup]
  refine ⟨hstep, ?_, by decide, by decide, by decide, by decide⟩
  rw [hstep]
  simp [StepResult.events, uploadCalls]

/-- C1 witness: on a filesystem holding `foo.txt` with a succeeding
client, the callback performs exactly one upload, of `foo.txt` with its
MIME type. -/
theorem createUploadFunc_success_uploads_once_witness :
    uploadCalls (StepResult.events (createUploadFunc fsysDemo clientOk "foo.txt"
        (some ⟨"foo.txt", false⟩) none)) =
      [⟨"foo.txt", ⟨"some body".data, 0⟩, mimeTypeByExtension (filepathExt "foo.txt")⟩] :=
  (createUploadFunc_success_uploads_once fsysDemo clientOk "foo.txt" ⟨"foo.txt", false⟩
      "some body".data rfl rfl rfl).2.1

/-- C2: for every directory entry with a nil prior walk error, the
callback returns success (nil error), never invokes the uploader, and
never opens the entry. -/
theorem createUploadFunc_skips_directories (fsys : FSys) (client : Uploader)
    (path : String) (d : DirEntry) (hdir : d.isDir = true) :
    createUploadFunc fsys client path (some d) none = .ret none [.foundDir path] ∧
    uploadCalls (StepResult.events (createUploadFunc fsys client path (some d) none)) = [] ∧
    opensOf (StepResult.events (createUploadFunc fsys client path (some d) none)) = [] := by
  have hstep : createUploadFunc fsys client path (some d) none =
      .ret none [.foundDir path] := by
    simp [createUploadFunc, hdir]
  refine ⟨hstep, ?_, ?_⟩ <;> rw [hstep] <;> simp [StepResult.events, uploadCalls, opensOf]

/-- C2 witness: a directory entry is skipped with success and without
any upload or open. -/
theorem createUploadFunc_skips_directories_witness :
    createUploadFunc fsysDemo clientOk "foo/bar" (some ⟨"foo/bar", true⟩) none =
      .ret none [.foundDir "foo/bar"] :=
  (createUploadFunc_skips_directories fsysDemo clientOk "foo/bar" ⟨"foo/bar", true⟩ rfl).1

/-- C3: whenever the walk passes a non-nil prior access error, the
callback returns a non-nil error wrapping that error together with the
path, the uploader is never invoked, and no file is opened. -/
theorem createUploadFunc_walk_error (fsys : FSys) (client : Uploader)
    (path : String) (entry : Option DirEntry) (err : Option String)
    (h : err ≠ none) :
    (∃ e, err = some e ∧
      createUploadFunc fsys client path entry err =
        .ret (some (walkErrMsg path e)) []) ∧
    uploadCalls (StepResult.events (createUploadFunc fsys client path entry err)) = [] ∧
    opensOf (StepResult.events (createUploadFunc fsys client path entry err)) = [] := by
  cases err with
  | none => exact absurd rfl h
  | some e =>
    refine ⟨⟨e, rfl, rfl⟩, ?_, ?_⟩ <;>
      simp [createUploadFunc, StepResult.events, uploadCalls, opensOf]

/-- C3 witness: a prior walk error `some error` on `foo.txt` yields the
wrapped error and no uploader invocation. -/
theorem createUploadFunc_walk_error_witness :
    ∃ e, (some "some error" : Option String) = some e ∧
      createUploadFunc fsysDemo clientOk "foo.txt" none (some "some error") =
        .ret (some (walkErrMsg "foo.txt" e)) [] :=
  (createUploadFunc_walk_error fsysDemo clientOk "foo.txt" none (some "some error")
      (by decide)).1

/-- C4: for every non-directory entry whose open fails, the callback
returns a non-nil error wrapped with the offending path and the uploader
is never invoked. -/
theorem createUploadFunc_open_error (fsys : FSys) (client : Uploader)
    (path : String) (d : DirEntry) (e : String)
    (hdir : d.isDir = false)
    (hopen : fsys.openFile path = .error e) :
    createUploadFunc fsys client path (some d) none =
      .ret (some (openErrMsg path e)) [] ∧
    uploadCalls (StepResult.events (createUploadFunc fsys client path (some d) none)) = [] := by
  have hstep : createUploadFunc fsys client path (some d) none =
      .ret (some (openErrMsg path e)) [] := by
    simp [createUploadFunc, hdir, hopen]
  refine ⟨hstep, ?_⟩
  rw [hstep]
  simp [StepResult.events, uploadCalls]

/-- C4 witness: on a filesystem where every open fails, the callback
returns the wrapped open error for `foo.txt` and performs no upload. -/
theorem createUploadFunc_open_error_witness :
    createUploadFunc fsysBroken clientOk "foo.txt" (some ⟨"foo.txt", false⟩) none =
      .ret (some (openErrMsg "foo.txt" "can\x27t be opened")) [] :=
  (createUploadFunc_open_error fsysBroken clientOk "foo.txt" ⟨"foo.txt", false⟩
      "can\x27t be opened" rfl rfl).1

/-- C5: for every non-directory entry whose file opens successfully but
whose upload fails, the callback returns a non-nil error wrapping the
upload failure together with the path. -/
theorem createUploadFunc_upload_error (fsys : FSys) (client : Uploader)
    (path : String) (d : DirEntry) (content : List Char) (uerr : String)
    (hdir : d.isDir = false)
    (hopen : fsys.openFile path = .ok content)
    (hup : client ⟨path, ⟨content, 0⟩, mimeTypeByExtension (filepathExt path)⟩ = some uerr) :
    createUploadFunc fsys client path (some d) none =
      .ret (some (uploadErrMsg path uerr))
        [.fileOpened path,
         .uploadCalled ⟨path, ⟨content, 0⟩, mimeTypeByExtension (filepathExt path)⟩,
         .fileClosed path] := by
  simp [createUploadFunc, hdir, hopen, hup]

/-- C5 witness: with a failing client, the callback on `foo.txt` returns
the wrapped upload error. -/
theorem createUploadFunc_upload_error_witness :
    createUploadFunc fsysDemo clientFail "foo.txt" (some ⟨"foo.txt", false⟩) none =
      .ret (some (uploadErrMsg "foo.txt" "failed to upload"))
        [.fileOpened "foo.txt",
         .uploadCalled ⟨"foo.txt", ⟨"some body".data, 0⟩,
           mimeTypeByExtension (filepathExt "foo.txt")⟩,
         .fileClosed "foo.txt"] :=
  createUploadFunc_upload_error fsysDemo clientFail "foo.txt" ⟨"foo.txt", false⟩
    "some body".data "failed to upload" rfl rfl rfl

/-- C6: for a file whose content is exactly the bytes `some body`, every
body stream the uploader receives from the callback reads back exactly
`some body` — the callback neither consumes, truncates, nor duplicates
the bytes before handing over the stream. -/
theorem createUploadFunc_body_roundtrip (fsys : FSys) (client : Uploader)
    (path : String) (d : DirEntry)
    (hdir : d.isDir = false)
    (hopen : fsys.openFile path = .ok "some body".data) :
    ∀ obj ∈ uploadCalls (StepResult.events (createUploadFunc fsys client path (some d) none)),
      FileStream.readAll obj.Body = "some body".data := by
  cases hup : client ⟨path, ⟨"some body".data, 0⟩,
      mimeTypeByExtension (filepathExt path)⟩ with
  | some uerr =>
    simp [createUploadFunc, hdir, hopen, hup, StepResult.events, uploadCalls,
      FileStream.readAll]
  | none =>
    simp [createUploadFunc, hdir, hopen, hup, StepResult.events, uploadCalls,
      FileStream.readAll]

/-- C6 witness: the stream the uploader receives for `foo.txt` reads back
exactly `some body`. -/
theorem createUploadFunc_body_roundtrip_witness :
    FileStream.readAll (FileStream.mk "some body".data 0) = "some body".data :=
  createUploadFunc_body_roundtrip fsysDemo clientOk "foo.txt" ⟨"foo.txt", false⟩
    rfl rfl
    ⟨"foo.txt", ⟨"some body".data, 0⟩, mimeTypeByExtension (filepathExt "foo.txt")⟩
    (by decide)

/-- C7: on every exit of the callback in which a file stream was obtained
from the open operation — upload success and upload failure alike — the
stream is closed before the callback returns: the close is present in the
trace and is its final action. -/
theorem createUploadFunc_closes_stream (fsys : FSys) (client : Uploader)
    (path : String) (entry : Option DirEntry) (err : Option String)
    (h : Event.fileOpened path ∈
      StepResult.events (createUploadFunc fsys client path entry err)) :
    Event.fileClosed path ∈
      StepResult.events (createUploadFunc fsys client path entry err) ∧
    (StepResult.events (createUploadFunc fsys client path entry err)).getLast? =
      some (Event.fileClosed path) := by
  cases err with
  | some e => simp [createUploadFunc, StepResult.events] at h
  | none =>
    cases entry with
    | none => simp [createUploadFunc, StepResult.events] at h
    | some d =>
      cases hd : d.isDir with
      | true => simp [createUploadFunc, hd, StepResult.events] at h
      | false =>
        cases ho : fsys.openFile path with
        | error e => simp [createUploadFunc, hd, ho, StepResult.events] at h
        | ok content =>
          cases hup : client ⟨path, ⟨content, 0⟩,
              mimeTypeByExtension (filepathExt path)⟩ with
          | some uerr =>
            simp [createUploadFunc, hd, ho, hup, StepResult.events, List.getLast?]
          | none =>
            simp [createUploadFunc, hd, ho, hup, StepResult.events, List.getLast?]

/-- C7 witness: in the successful upload of `foo.txt`, the opened stream
is closed, as the final action of the step. -/
theorem createUploadFunc_closes_stream_witness :
    Event.fileClosed "foo.txt" ∈
      StepResult.events (createUploadFunc fsysDemo clientOk "foo.txt"
        (some ⟨"foo.txt", false⟩) none) ∧
    (StepResult.events (createUploadFunc fsysDemo clientOk "foo.txt"
        (some ⟨"foo.txt", false⟩) none)).getLast? =
      some (Event.fileClosed "foo.txt") :=
  createUploadFunc_closes_stream fsysDemo clientOk "foo.txt"
    (some ⟨"foo.txt", false⟩) none (by decide)

/-- C10: the prior-error check takes precedence over the directory skip:
with a non-nil walk error the callback returns the wrapped error for
every entry value — a nil entry does not fault, and even a directory
entry aborts the walk instead of being skipped. -/
theorem createUploadFunc_walk_error_precedence (fsys : FSys) (client : Uploader)
    (path : String) (entry : Option DirEntry) (e : String) :
    createUploadFunc fsys client path entry (some e) =
      .ret (some (walkErrMsg path e)) [] ∧
    createUploadFunc fsys client path none (some e) ≠ .crash := by
  exact ⟨rfl, by simp [createUploadFunc]⟩

/-- C8: every `Upload` call of the uploader built by `main` hands the
base store operation the configured bucket as container, the object's
`Path` as key, the unconditionally configured `public-read` ACL, the
object's `Body`, the object's `ContentType`, and the instance's static
tag set as metadata; `Upload` returns a non-nil error iff the store
operation fails, and every such error carries the single uniform S3
upload wrapping, not the distinguished cause. -/
theorem s3Uploader_Upload_contract (base : UploadInput → Option String)
    (bucket appVersion : String) (obj : UploadObject) :
    (S3Uploader.uploadInput (mainS3Uploader base bucket appVersion) obj).Bucket = bucket ∧
    (S3Uploader.uploadInput (mainS3Uploader base bucket appVersion) obj).Key = obj.Path ∧
    (S3Uploader.uploadInput (mainS3Uploader base bucket appVersion) obj).ACL = "public-read" ∧
    (S3Uploader.uploadInput (mainS3Uploader base bucket appVersion) obj).Body = obj.Body ∧
    (S3Uploader.uploadInput (mainS3Uploader base bucket appVersion) obj).ContentType =
      obj.ContentType ∧
    (S3Uploader.uploadInput (mainS3Uploader base bucket appVersion) obj).Metadata =
      (mainS3Uploader base bucket appVersion).Tags ∧
    (S3Uploader.Upload (mainS3Uploader base bucket appVersion) obj = none ↔
      base (S3Uploader.uploadInput (mainS3Uploader base bucket appVersion) obj) = none) ∧
    ∀ m, S3Uploader.Upload (mainS3Uploader base bucket appVersion) obj = some m →
      ∃ e, base (S3Uploader.uploadInput (mainS3Uploader base bucket appVersion) obj) = some e ∧
        m = "failed to upload to S3: " ++ e := by
  have hbase : (mainS3Uploader base bucket appVersion).base = base := by
    by_cases hv : appVersion = "" <;> simp [mainS3Uploader, newS3Uploader, hv]
  refine ⟨?_, rfl, ?_, rfl, rfl, rfl, ?_, ?_⟩
  · by_cases hv : appVersion = "" <;>
      simp [mainS3Uploader, newS3Uploader, hv, S3Uploader.uploadInput]
  · by_cases hv : appVersion = "" <;>
      simp [mainS3Uploader, newS3Uploader, hv, S3Uploader.uploadInput]
  · cases hb : base (S3Uploader.uploadInput (mainS3Uploader base bucket appVersion) obj) <;>
      simp [S3Uploader.Upload, hbase, hb]
  · intro m hm
    cases hb : base (S3Uploader.uploadInput (mainS3Uploader base bucket appVersion) obj) with
    | none => simp [S3Uploader.Upload, hbase, hb] at hm
    | some e =>
      refine ⟨e, rfl, ?_⟩
      simp [S3Uploader.Upload, hbase, hb] at hm
      exact hm.symm

/-- C8 witness: with an always-failing base client, `Upload` fails with
the uniformly wrapped message. -/
theorem s3Uploader_Upload_contract_witness :
    ∃ e, baseFail (S3Uploader.uploadInput (mainS3Uploader baseFail "bucket" "1.0") objDemo) =
        some e ∧
      "failed to upload to S3: boom" = "failed to upload to S3: " ++ e :=
  (s3Uploader_Upload_contract baseFail "bucket" "1.0" objDemo).2.2.2.2.2.2.2
    "failed to upload to S3: boom" rfl

/-- C9: if either `AWS_ACCESS_KEY_ID` or `AWS_SECRET_ACCESS_KEY` is
absent (empty), the program terminates fatally with a non-zero exit
before any walk begins and performs no uploads. -/
theorem mainRun_missing_credentials (env : Env) (fsys : FSys) (client : Uploader)
    (entries : List (String × Option DirEntry × Option String))
    (h : env.awsAccessKeyId = "" ∨ env.awsSecretAccessKey = "") :
    mainRun env fsys client entries = (.fatalExit 1 missingCredentialsMsg, []) ∧
    uploadCalls (mainRun env fsys client entries).2 = [] ∧
    (mainRun env fsys client entries).1 ≠ .completed := by
  have hstep : mainRun env fsys client entries = (.fatalExit 1 missingCredentialsMsg, []) := by
    unfold mainRun
    rw [if_pos h]
  refine ⟨hstep, ?_, ?_⟩ <;> rw [hstep] <;> simp [uploadCalls]

/-- C9 witness: with an empty access key id, the modelled `main` exits
fatally before the walk and performs no uploads. -/
theorem mainRun_missing_credentials_witness :
    mainRun ⟨"", "secret"⟩ fsysDemo clientOk [("foo.txt", some ⟨"foo.txt", false⟩, none)] =
      (.fatalExit 1 missingCredentialsMsg, []) :=
  (mainRun_missing_credentials ⟨"", "secret"⟩ fsysDemo clientOk
      [("foo.txt", some ⟨"foo.txt", false⟩, none)] (Or.inl rfl)).1
